import Mathlib

/-!
Shallow embedding of `classify_puzzles.py`, a single-pass chess-puzzle
difficulty classifier.  The script reads game records from a PGN file,
asks an external engine (Maia via lc0) for its top move at each record's
FEN position, classifies the record as easy (engine move equals the first
mainline move) or hard (otherwise), and streams the records into rotating
batch output files of at most `PUZZLES_PER_BATCH` puzzles each.

External effects are modelled by oracles:
  * the engine process (`chess.Board(fen)` followed by
    `engine.analyse(board, Limit(nodes=1))`) is a function
    `Engine : String → EngineResult`; an exception raised by either call
    is `EngineResult.raise`, a normal return is `EngineResult.ok` carrying
    the truthiness of the returned info dict and its optional `pv` entry;
  * the host file system is an oracle `openOk : String → Bool` deciding
    whether `open(name, 'w')` succeeds (the `except IOError` branch of the
    source sets the handle to `None` when it fails); a `write` call on a
    handle that is open is modelled as succeeding;
  * engine initialisation is an `InitOutcome` (success, `popen_uci`
    raising before the engine variable is assigned, or a later failure
    such as `configure` raising after it is assigned);
  * the input file is `Option (List Game)` (`none` models
    `FileNotFoundError` when opening it), and an exception interrupting
    the record loop is modelled by `crashAfter`, the number of records
    fully handled before the exception propagates to the outer handler.

Moves (`chess.Move` values) are modelled as UCI strings compared for
equality; records (`chess.pgn` games) carry the header fields the script
reads and the already-exported PGN string.  Log strings abbreviate the
Python `print` f-strings but are emitted at exactly the source's print
sites that concern a record's fate.
-/

namespace ClassifyPuzzles

/-- A chess move, identified by its UCI text; `chess.Move` equality is
structural, which string equality mirrors. -/
abbrev Move := String

/-- The info dictionary returned by `engine.analyse`: whether the dict is
truthy (non-empty) and, when the `pv` key is present, the principal
variation. -/
structure InfoDict where
  isTruthy : Bool
  pv : Option (List Move)
deriving Repr, DecidableEq

/-- Outcome of building the board from a FEN and analysing it: either the
info dict, or an exception message raised by `chess.Board` or
`engine.analyse`. -/
inductive EngineResult where
  | ok : InfoDict → EngineResult
  | raise : String → EngineResult
deriving Repr, DecidableEq

/-- The engine oracle: what analysing a given FEN yields. -/
abbrev Engine := String → EngineResult

/-- `get_maia_top_move` (source lines 17-37): returns the first move of
the principal variation, or `none` after printing a message when the
analysis raises or yields no (non-empty) `pv`.  The second component is
the list of printed messages. -/
def get_maia_top_move (engine : Engine) (fen_str : String) : Option Move × List String :=
  match engine fen_str with
  | .raise e =>
      (none, ["Error during Maia analysis for FEN " ++ fen_str ++ ": " ++ e])
  | .ok info =>
      if info.isTruthy then
        match info.pv with
        | some (m :: _) => (some m, [])
        | some [] => (none, ["Error: Maia did not return a principal variation (top move)."])
        | none => (none, ["Error: Maia did not return a principal variation (top move)."])
      else
        (none, ["Error: Maia did not return a principal variation (top move)."])

/-- A game record as the script sees it: the header fields it reads
(`headers.get` returns `None` when absent), the parsed mainline moves,
and the PGN string produced by the exporter. -/
structure Game where
  fen : Option String
  setup : Option String
  event : Option String
  mainlineMoves : List Move
  pgnString : String
deriving Repr, DecidableEq

/-- Python falsiness of an optional string: `not x` is true for `None`
and for the empty string. -/
def pyFalsy : Option String → Bool
  | none => true
  | some s => s.isEmpty

/-- Source line 50. -/
def PUZZLES_PER_BATCH : Nat := 25

/-- An output batch file: its name and the strings written to it. -/
structure BatchFile where
  name : String
  puzzles : List String
deriving Repr, DecidableEq

/-- The per-class batching state: the batch counter, the number of
puzzles written to the current batch, the current open file (`none`
when no file is open, matching `f_easy = None` / `f_hard = None`), and
the files closed so far.  The source duplicates this state and logic
verbatim for the easy and the hard class. -/
structure BatchState where
  batch_num : Nat
  in_current_batch : Nat
  f : Option BatchFile
  closed : List BatchFile
deriving Repr, DecidableEq

/-- The name of the `num`-th batch file for a base name (source lines
135 and 161). -/
def batchFileName (base : String) (num : Nat) : String :=
  base ++ "_batch_" ++ toString num ++ ".pgn"

/-- Characters before the last dot of a character list, or `none` when
there is no dot. -/
def beforeLastDot : List Char → Option (List Char)
  | [] => none
  | c :: cs =>
      match beforeLastDot cs with
      | some pre => some (c :: pre)
      | none => if c = '.' then some [] else none

/-- Python `s.rsplit('.', 1)[0]` (source lines 59-60): everything before
the last dot, or the whole string when it has no dot. -/
def rsplitBase (s : String) : String :=
  match beforeLastDot s.toList with
  | some pre => String.mk pre
  | none => s

/-- One write of a classified puzzle to a class's batch stream (source
lines 130-149 for easy, 156-175 for hard; the two blocks are identical up
to renaming).  If no file is open or the current batch is full, the
current file (if any) is closed, the batch counter is incremented, and a
new file is opened — set to `none` when the open fails.  Then, if a file
is open, the PGN string plus a blank line is written to it and the
in-batch counter is incremented. -/
def writeBatch (openOk : String → Bool) (base : String) (pgn : String)
    (b : BatchState) : BatchState :=
  let b1 :=
    if b.f = none ∨ PUZZLES_PER_BATCH ≤ b.in_current_batch then
      { batch_num := b.batch_num + 1
        in_current_batch := 0
        f := if openOk (batchFileName base (b.batch_num + 1)) then
               some { name := batchFileName base (b.batch_num + 1), puzzles := [] }
             else none
        closed := b.closed ++ b.f.toList }
    else b
  match b1.f with
  | some fl =>
      { b1 with
          f := some { name := fl.name, puzzles := fl.puzzles ++ [pgn ++ "\n\n"] }
          in_current_batch := b1.in_current_batch + 1 }
  | none => b1

/-- The state of `process_pgn_file` while iterating records. -/
structure PState where
  easy_puzzles_pgn_strings : List String
  hard_puzzles_pgn_strings : List String
  error_puzzles_count : Nat
  processed_puzzles_count : Nat
  easyBatch : BatchState
  hardBatch : BatchState
  log : List String
deriving Repr, DecidableEq

/-- The state before the first record is read. -/
def initState : PState :=
  { easy_puzzles_pgn_strings := []
    hard_puzzles_pgn_strings := []
    error_puzzles_count := 0
    processed_puzzles_count := 0
    easyBatch := { batch_num := 0, in_current_batch := 0, f := none, closed := [] }
    hardBatch := { batch_num := 0, in_current_batch := 0, f := none, closed := [] }
    log := [] }

/-- The per-record identifier string (source line 91). -/
def puzzleIdStr (n : Nat) (g : Game) : String :=
  "puzzle #" ++ toString n ++ " (Event: " ++ g.event.getD "N/A" ++ ")"

/-- The body of the record loop (source lines 90-175), handling one
record: increment the processed counter; skip with an error when the FEN
header is falsy (with a dedicated message when SetUp is "1"), when the
mainline is empty, or when the engine yields no top move; otherwise
classify by comparing the first mainline move with the engine's move and
append the record to the matching class list and batch stream. -/
def processGame (engine : Engine) (openOk : String → Bool)
    (easyBase hardBase : String) (s : PState) (g : Game) : PState :=
  let n := s.processed_puzzles_count + 1
  let pid := puzzleIdStr n g
  let s0 : PState :=
    { s with
        processed_puzzles_count := n
        log := s.log ++ ["Processing " ++ pid ++ "..."] }
  if g.setup = some "1" ∧ pyFalsy g.fen = true then
    { s0 with
        error_puzzles_count := s0.error_puzzles_count + 1
        log := s0.log ++ ["Error: " ++ pid ++ " has SetUp=1 but no FEN tag. Skipping."] }
  else if pyFalsy g.fen = true then
    { s0 with
        error_puzzles_count := s0.error_puzzles_count + 1
        log := s0.log ++ ["Error: " ++ pid ++ " FEN tag not found. Cannot determine position. Skipping."] }
  else
    match g.mainlineMoves with
    | [] =>
        { s0 with
            error_puzzles_count := s0.error_puzzles_count + 1
            log := s0.log ++ ["Error: " ++ pid ++ " no solution move found. Skipping."] }
    | solution_move_object :: _ =>
        let res := get_maia_top_move engine (g.fen.getD "")
        let s1 : PState := { s0 with log := s0.log ++ res.2 }
        match res.1 with
        | none =>
            { s1 with
                error_puzzles_count := s1.error_puzzles_count + 1
                log := s1.log ++ ["  Could not get Maia top move for " ++ pid ++ ". Skipping classification."] }
        | some maia_top_move =>
            if solution_move_object = maia_top_move then
              let s2 : PState :=
                { s1 with
                    easy_puzzles_pgn_strings := s1.easy_puzzles_pgn_strings ++ [g.pgnString]
                    log := s1.log ++ ["  Classification for " ++ pid ++ ": Easy"] }
              { s2 with easyBatch := writeBatch openOk easyBase g.pgnString s2.easyBatch }
            else
              let s2 : PState :=
                { s1 with
                    hard_puzzles_pgn_strings := s1.hard_puzzles_pgn_strings ++ [g.pgnString]
                    log := s1.log ++ ["  Classification for " ++ pid ++ ": Hard"] }
              { s2 with hardBatch := writeBatch openOk hardBase g.pgnString s2.hardBatch }

/-- The record loop over the whole input (source lines 85-88: read games
until `read_game` returns `None`). -/
def processList (engine : Engine) (openOk : String → Bool)
    (easyBase hardBase : String) (s : PState) (games : List Game) : PState :=
  games.foldl (processGame engine openOk easyBase hardBase) s

/-- The `finally` block's file cleanup (source lines 186-191): close the
open easy and hard batch files when they exist. -/
def finallyClose (s : PState) : PState :=
  { s with
      easyBatch := { s.easyBatch with closed := s.easyBatch.closed ++ s.easyBatch.f.toList, f := none }
      hardBatch := { s.hardBatch with closed := s.hardBatch.closed ++ s.hardBatch.f.toList, f := none } }

/-- Outcome of engine initialisation (source lines 69-82): success;
`popen_uci` raising, in which case the `engine` variable is never
assigned; or a later exception (for example from `configure`) after the
variable is assigned. -/
inductive InitOutcome where
  | ok
  | popenFail (e : String)
  | configureFail (e : String)
deriving Repr, DecidableEq

/-- The observable outcome of `process_pgn_file`: the final state and
whether the engine process was started and was quit. -/
structure RunOut where
  state : PState
  engineOpened : Bool
  engineQuit : Bool
deriving Repr, DecidableEq

/-- `process_pgn_file` (source lines 39-202).  Initialise the engine
(returning early on failure; the `finally` block quits the engine exactly
when the `engine` variable was assigned).  Open the input file (`none`
models `FileNotFoundError`; the handler at line 177 returns, and
`finally` still runs).  Then iterate the records; `crashAfter = some k`
models an exception escaping the loop after `k` records were fully
handled, caught by the handler at line 180, after which `finally` quits
the engine and closes any open batch files. -/
def process_pgn_file (init : InitOutcome) (input : Option (List Game))
    (crashAfter : Option Nat) (engine : Engine) (openOk : String → Bool)
    (easy_output_filepath hard_output_filepath : String) : RunOut :=
  let easyBase := rsplitBase easy_output_filepath
  let hardBase := rsplitBase hard_output_filepath
  match init with
  | .popenFail _ => { state := initState, engineOpened := false, engineQuit := false }
  | .configureFail _ => { state := initState, engineOpened := true, engineQuit := true }
  | .ok =>
      match input with
      | none => { state := initState, engineOpened := true, engineQuit := true }
      | some games =>
          let handled :=
            match crashAfter with
            | some k => games.take k
            | none => games
          let s := processList engine openOk easyBase hardBase initState handled
          { state := finallyClose s, engineOpened := true, engineQuit := true }

/-! ### Step lemmas: one record through the loop body -/

/-- A record with a truthy FEN header, a first mainline move equal to the
engine's top move, is appended to the easy class list and easy batch
stream; nothing else of the classification state changes. -/
theorem processGame_easy_case (engine : Engine) (openOk : String → Bool)
    (easyBase hardBase : String) (s : PState) (g : Game) (sol : Move)
    (rest : List Move) (t : Move)
    (hfen : pyFalsy g.fen = false)
    (hml : g.mainlineMoves = sol :: rest)
    (htop : (get_maia_top_move engine (g.fen.getD "")).1 = some t)
    (heq : sol = t) :
    (processGame engine openOk easyBase hardBase s g).easy_puzzles_pgn_strings
        = s.easy_puzzles_pgn_strings ++ [g.pgnString] ∧
    (processGame engine openOk easyBase hardBase s g).hard_puzzles_pgn_strings
        = s.hard_puzzles_pgn_strings ∧
    (processGame engine openOk easyBase hardBase s g).error_puzzles_count
        = s.error_puzzles_count ∧
    (processGame engine openOk easyBase hardBase s g).processed_puzzles_count
        = s.processed_puzzles_count + 1 ∧
    (processGame engine openOk easyBase hardBase s g).easyBatch
        = writeBatch openOk easyBase g.pgnString s.easyBatch ∧
    (processGame engine openOk easyBase hardBase s g).hardBatch = s.hardBatch := by
  subst heq
  simp [processGame, hfen, hml, htop]

/-- A record with a truthy FEN header, a first mainline move different
from the engine's top move, is appended to the hard class list and hard
batch stream; nothing else of the classification state changes. -/
theorem processGame_hard_case (engine : Engine) (openOk : String → Bool)
    (easyBase hardBase : String) (s : PState) (g : Game) (sol : Move)
    (rest : List Move) (t : Move)
    (hfen : pyFalsy g.fen = false)
    (hml : g.mainlineMoves = sol :: rest)
    (htop : (get_maia_top_move engine (g.fen.getD "")).1 = some t)
    (hne : sol ≠ t) :
    (processGame engine openOk easyBase hardBase s g).hard_puzzles_pgn_strings
        = s.hard_puzzles_pgn_strings ++ [g.pgnString] ∧
    (processGame engine openOk easyBase hardBase s g).easy_puzzles_pgn_strings
        = s.easy_puzzles_pgn_strings ∧
    (processGame engine openOk easyBase hardBase s g).error_puzzles_count
        = s.error_puzzles_count ∧
    (processGame engine openOk easyBase hardBase s g).processed_puzzles_count
        = s.processed_puzzles_count + 1 ∧
    (processGame engine openOk easyBase hardBase s g).hardBatch
        = writeBatch openOk hardBase g.pgnString s.hardBatch ∧
    (processGame engine openOk easyBase hardBase s g).easyBatch = s.easyBatch := by
  simp [processGame, hfen, hml, htop, hne]

/-- A record whose FEN header is absent or empty is skipped as an error,
whatever its SetUp header says: the error counter is incremented, a
message is logged, and neither class list nor batch stream changes. -/
theorem processGame_skip_nofen (engine : Engine) (openOk : String → Bool)
    (easyBase hardBase : String) (s : PState) (g : Game)
    (hfen : pyFalsy g.fen = true) :
    (processGame engine openOk easyBase hardBase s g).error_puzzles_count
        = s.error_puzzles_count + 1 ∧
    (processGame engine openOk easyBase hardBase s g).processed_puzzles_count
        = s.processed_puzzles_count + 1 ∧
    (processGame engine openOk easyBase hardBase s g).easy_puzzles_pgn_strings
        = s.easy_puzzles_pgn_strings ∧
    (processGame engine openOk easyBase hardBase s g).hard_puzzles_pgn_strings
        = s.hard_puzzles_pgn_strings ∧
    (processGame engine openOk easyBase hardBase s g).easyBatch = s.easyBatch ∧
    (processGame engine openOk easyBase hardBase s g).hardBatch = s.hardBatch ∧
    ∃ msgs, (processGame engine openOk easyBase hardBase s g).log = s.log ++ msgs
      ∧ msgs ≠ [] := by
  by_cases hset : g.setup = some "1" <;> simp [processGame, hfen, hset]

/-- A record with a truthy FEN header but no mainline move is skipped as
an error. -/
theorem processGame_skip_nomoves (engine : Engine) (openOk : String → Bool)
    (easyBase hardBase : String) (s : PState) (g : Game)
    (hfen : pyFalsy g.fen = false)
    (hml : g.mainlineMoves = []) :
    (processGame engine openOk easyBase hardBase s g).error_puzzles_count
        = s.error_puzzles_count + 1 ∧
    (processGame engine openOk easyBase hardBase s g).processed_puzzles_count
        = s.processed_puzzles_count + 1 ∧
    (processGame engine openOk easyBase hardBase s g).easy_puzzles_pgn_strings
        = s.easy_puzzles_pgn_strings ∧
    (processGame engine openOk easyBase hardBase s g).hard_puzzles_pgn_strings
        = s.hard_puzzles_pgn_strings ∧
    (processGame engine openOk easyBase hardBase s g).easyBatch = s.easyBatch ∧
    (processGame engine openOk easyBase hardBase s g).hardBatch = s.hardBatch ∧
    ∃ msgs, (processGame engine openOk easyBase hardBase s g).log = s.log ++ msgs
      ∧ msgs ≠ [] := by
  simp [processGame, hfen, hml]

/-- A record that validates but for which the engine yields no top move
is skipped as an error. -/
theorem processGame_skip_notop (engine : Engine) (openOk : String → Bool)
    (easyBase hardBase : String) (s : PState) (g : Game) (sol : Move)
    (rest : List Move)
    (hfen : pyFalsy g.fen = false)
    (hml : g.mainlineMoves = sol :: rest)
    (htop : (get_maia_top_move engine (g.fen.getD "")).1 = none) :
    (processGame engine openOk easyBase hardBase s g).error_puzzles_count
        = s.error_puzzles_count + 1 ∧
    (processGame engine openOk easyBase hardBase s g).processed_puzzles_count
        = s.processed_puzzles_count + 1 ∧
    (processGame engine openOk easyBase hardBase s g).easy_puzzles_pgn_strings
        = s.easy_puzzles_pgn_strings ∧
    (processGame engine openOk easyBase hardBase s g).hard_puzzles_pgn_strings
        = s.hard_puzzles_pgn_strings ∧
    (processGame engine openOk easyBase hardBase s g).easyBatch = s.easyBatch ∧
    (processGame engine openOk easyBase hardBase s g).hardBatch = s.hardBatch ∧
    ∃ msgs, (processGame engine openOk easyBase hardBase s g).log = s.log ++ msgs
      ∧ msgs ≠ [] := by
  simp [processGame, hfen, hml, htop]

/-- Every record, whatever its fate, increments the processed counter by
exactly one. -/
theorem processGame_processed (engine : Engine) (openOk : String → Bool)
    (easyBase hardBase : String) (s : PState) (g : Game) :
    (processGame engine openOk easyBase hardBase s g).processed_puzzles_count
        = s.processed_puzzles_count + 1 := by
  unfold processGame
  dsimp only
  split
  · rfl
  split
  · rfl
  split
  · rfl
  split
  · rfl
  split <;> rfl

/-! ### Batch-stream invariants -/

/-- The invariant tying a batch stream together: every closed file holds
at most `PUZZLES_PER_BATCH` puzzles, the open file (when there is one)
holds exactly `in_current_batch` puzzles, and `in_current_batch` never
exceeds `PUZZLES_PER_BATCH`. -/
def batchInv (b : BatchState) : Prop :=
  (∀ f ∈ b.closed, f.puzzles.length ≤ PUZZLES_PER_BATCH) ∧
  (∀ f, b.f = some f → f.puzzles.length = b.in_current_batch) ∧
  b.in_current_batch ≤ PUZZLES_PER_BATCH

/-- Shape of a `writeBatch` step that rotates to a new file whose open
succeeds: the old open file (if any) joins the closed list, the batch
counter advances, and the puzzle is the sole content of the new file. -/
theorem writeBatch_eq_rotate (openOk : String → Bool) (base pgn : String)
    (b : BatchState)
    (hc : b.f = none ∨ PUZZLES_PER_BATCH ≤ b.in_current_batch)
    (ho : openOk (batchFileName base (b.batch_num + 1)) = true) :
    writeBatch openOk base pgn b =
      { batch_num := b.batch_num + 1
        in_current_batch := 1
        f := some { name := batchFileName base (b.batch_num + 1)
                    puzzles := [pgn ++ "\n\n"] }
        closed := b.closed ++ b.f.toList } := by
  simp only [writeBatch, if_pos hc, ho, if_true, List.nil_append, Nat.zero_add]

/-- Shape of a `writeBatch` step that rotates but whose open fails: no
file is open afterwards and nothing is written. -/
theorem writeBatch_eq_rotate_fail (openOk : String → Bool) (base pgn : String)
    (b : BatchState)
    (hc : b.f = none ∨ PUZZLES_PER_BATCH ≤ b.in_current_batch)
    (ho : openOk (batchFileName base (b.batch_num + 1)) = false) :
    writeBatch openOk base pgn b =
      { batch_num := b.batch_num + 1
        in_current_batch := 0
        f := none
        closed := b.closed ++ b.f.toList } := by
  simp only [writeBatch, if_pos hc, ho, Bool.false_eq_true, if_false]

/-- Shape of a `writeBatch` step with an open, non-full current file:
the puzzle is appended to it and the in-batch counter advances. -/
theorem writeBatch_eq_write (openOk : String → Bool) (base pgn : String)
    (b : BatchState) (fl : BatchFile)
    (hbf : b.f = some fl)
    (hlt : b.in_current_batch < PUZZLES_PER_BATCH) :
    writeBatch openOk base pgn b =
      { batch_num := b.batch_num
        in_current_batch := b.in_current_batch + 1
        f := some { name := fl.name, puzzles := fl.puzzles ++ [pgn ++ "\n\n"] }
        closed := b.closed } := by
  have hc : ¬(some fl = none ∨ PUZZLES_PER_BATCH ≤ b.in_current_batch) := by
    push_neg
    exact ⟨Option.some_ne_none fl, hlt⟩
  simp only [writeBatch, hbf, if_neg hc]

theorem writeBatch_inv (openOk : String → Bool) (base pgn : String) (b : BatchState)
    (h : batchInv b) : batchInv (writeBatch openOk base pgn b) := by
  obtain ⟨hclosed, hopenf, hcount⟩ := h
  by_cases hc : b.f = none ∨ PUZZLES_PER_BATCH ≤ b.in_current_batch
  · have hclosed2 : ∀ f ∈ b.closed ++ b.f.toList, f.puzzles.length ≤ PUZZLES_PER_BATCH := by
      intro f hf
      rcases List.mem_append.1 hf with h1 | h2
      · exact hclosed f h1
      · rcases hbf : b.f with _ | fl
        · rw [hbf] at h2
          simp at h2
        · rw [hbf] at h2
          simp at h2
          subst h2
          rw [hopenf _ hbf]
          exact hcount
    by_cases ho : openOk (batchFileName base (b.batch_num + 1)) = true
    · rw [writeBatch_eq_rotate openOk base pgn b hc ho]
      refine ⟨hclosed2, ?_, ?_⟩
      · intro f hf
        simp only [Option.some.injEq] at hf
        subst hf
        rfl
      · show 1 ≤ PUZZLES_PER_BATCH
        decide
    · rw [writeBatch_eq_rotate_fail openOk base pgn b hc (Bool.not_eq_true _ ▸ ho)]
      refine ⟨hclosed2, ?_, Nat.zero_le _⟩
      intro f hf
      simp at hf
  · push_neg at hc
    obtain ⟨hne, hlt⟩ := hc
    rcases hbf : b.f with _ | fl
    · exact absurd hbf hne
    · rw [writeBatch_eq_write openOk base pgn b fl hbf hlt]
      refine ⟨hclosed, ?_, Nat.succ_le_of_lt hlt⟩
      intro f hf
      simp only [Option.some.injEq] at hf
      subst hf
      simp [hopenf fl hbf]

/-- Rotation behaviour at a full batch: when the open file holds exactly
`PUZZLES_PER_BATCH` puzzles and opening the next file succeeds, the next
write of that class closes the full file, increments the batch number,
and writes the puzzle (followed by a blank line) to the newly opened
file, which carries the next batch number in its name. -/
theorem writeBatch_rotates (openOk : String → Bool) (base pgn : String)
    (b : BatchState) (f : BatchFile)
    (hf : b.f = some f)
    (h25 : b.in_current_batch = PUZZLES_PER_BATCH)
    (ho : openOk (batchFileName base (b.batch_num + 1)) = true) :
    (writeBatch openOk base pgn b).closed = b.closed ++ [f] ∧
    (writeBatch openOk base pgn b).batch_num = b.batch_num + 1 ∧
    (writeBatch openOk base pgn b).f
        = some { name := batchFileName base (b.batch_num + 1)
                 puzzles := [pgn ++ "\n\n"] } ∧
    (writeBatch openOk base pgn b).in_current_batch = 1 := by
  simp [writeBatch, hf, h25, ho]

/-- `processGame` touches the easy batch stream only through
`writeBatch` with the easy base name, and likewise for the hard stream:
any property of each stream preserved by its `writeBatch` is preserved
by the whole step. -/
theorem processGame_batch (engine : Engine) (openOk : String → Bool)
    (easyBase hardBase : String) (s : PState) (g : Game)
    (P Q : BatchState → Prop)
    (hP : ∀ pgn b, P b → P (writeBatch openOk easyBase pgn b))
    (hQ : ∀ pgn b, Q b → Q (writeBatch openOk hardBase pgn b))
    (hp : P s.easyBatch) (hq : Q s.hardBatch) :
    P (processGame engine openOk easyBase hardBase s g).easyBatch ∧
    Q (processGame engine openOk easyBase hardBase s g).hardBatch := by
  unfold processGame
  dsimp only
  split
  · exact ⟨hp, hq⟩
  split
  · exact ⟨hp, hq⟩
  split
  · exact ⟨hp, hq⟩
  split
  · exact ⟨hp, hq⟩
  split
  · exact ⟨hP _ _ hp, hq⟩
  · exact ⟨hp, hQ _ _ hq⟩

theorem processList_batch (engine : Engine) (openOk : String → Bool)
    (easyBase hardBase : String) (games : List Game) (s : PState)
    (P Q : BatchState → Prop)
    (hP : ∀ pgn b, P b → P (writeBatch openOk easyBase pgn b))
    (hQ : ∀ pgn b, Q b → Q (writeBatch openOk hardBase pgn b))
    (hp : P s.easyBatch) (hq : Q s.hardBatch) :
    P (processList engine openOk easyBase hardBase s games).easyBatch ∧
    Q (processList engine openOk easyBase hardBase s games).hardBatch := by
  induction games generalizing s with
  | nil => exact ⟨hp, hq⟩
  | cons g gs ih =>
      have hstep := processGame_batch engine openOk easyBase hardBase s g P Q hP hQ hp hq
      simpa [processList, List.foldl_cons] using
        ih (processGame engine openOk easyBase hardBase s g) hstep.1 hstep.2

/-! ### Loop-level lemmas -/

/-- Handling one record and then the rest is the whole loop: the loop
continues after every record, it never aborts early. -/
theorem processList_cons (engine : Engine) (openOk : String → Bool)
    (easyBase hardBase : String) (s : PState) (g : Game) (gs : List Game) :
    processList engine openOk easyBase hardBase s (g :: gs)
      = processList engine openOk easyBase hardBase
          (processGame engine openOk easyBase hardBase s g) gs := by
  simp [processList, List.foldl_cons]

/-- Every record of the input bumps the processed counter: the loop
reads the whole input. -/
theorem processList_processed (engine : Engine) (openOk : String → Bool)
    (easyBase hardBase : String) (games : List Game) (s : PState) :
    (processList engine openOk easyBase hardBase s games).processed_puzzles_count
      = s.processed_puzzles_count + games.length := by
  induction games generalizing s with
  | nil => simp [processList]
  | cons g gs ih =>
      rw [processList_cons, ih,
        processGame_processed engine openOk easyBase hardBase s g]
      simp [Nat.add_assoc, Nat.add_comm 1 gs.length]

/-- One record adds exactly one to easy + hard + errors. -/
theorem processGame_partition (engine : Engine) (openOk : String → Bool)
    (easyBase hardBase : String) (s : PState) (g : Game) :
    (processGame engine openOk easyBase hardBase s g).easy_puzzles_pgn_strings.length
      + (processGame engine openOk easyBase hardBase s g).hard_puzzles_pgn_strings.length
      + (processGame engine openOk easyBase hardBase s g).error_puzzles_count
    = s.easy_puzzles_pgn_strings.length + s.hard_puzzles_pgn_strings.length
      + s.error_puzzles_count + 1 := by
  unfold processGame
  dsimp only
  split
  · dsimp only
    omega
  split
  · dsimp only
    omega
  split
  · dsimp only
    omega
  split
  · dsimp only
    omega
  split <;> (simp only [List.length_append, List.length_singleton]; omega)

theorem processList_partition (engine : Engine) (openOk : String → Bool)
    (easyBase hardBase : String) (games : List Game) (s : PState) :
    (processList engine openOk easyBase hardBase s games).easy_puzzles_pgn_strings.length
      + (processList engine openOk easyBase hardBase s games).hard_puzzles_pgn_strings.length
      + (processList engine openOk easyBase hardBase s games).error_puzzles_count
    = s.easy_puzzles_pgn_strings.length + s.hard_puzzles_pgn_strings.length
      + s.error_puzzles_count + games.length := by
  induction games generalizing s with
  | nil => simp [processList]
  | cons g gs ih =>
      rw [processList_cons, ih,
        processGame_partition engine openOk easyBase hardBase s g]
      simp only [List.length_cons]
      omega

/-! ### Batch-file naming -/

/-- The expected file names of the first `n` batches of a class. -/
def nameList (base : String) (n : Nat) : List String :=
  (List.range n).map (fun i => batchFileName base (i + 1))

/-- Naming invariant of a batch stream: the files created so far (closed
ones then the open one) are exactly batches `1, 2, ..., batch_num` in
order. -/
def nameInv (base : String) (b : BatchState) : Prop :=
  (b.closed ++ b.f.toList).map (fun f => f.name) = nameList base b.batch_num

theorem nameList_succ (base : String) (n : Nat) :
    nameList base (n + 1) = nameList base n ++ [batchFileName base (n + 1)] := by
  simp [nameList, List.range_succ]

theorem writeBatch_nameInv (openOk : String → Bool) (base pgn : String)
    (b : BatchState) (ho : ∀ nm, openOk nm = true)
    (h : nameInv base b) : nameInv base (writeBatch openOk base pgn b) := by
  by_cases hc : b.f = none ∨ PUZZLES_PER_BATCH ≤ b.in_current_batch
  · rw [nameInv, writeBatch_eq_rotate openOk base pgn b hc (ho _)]
    dsimp only
    rw [List.map_append, nameList_succ]
    unfold nameInv at h
    rw [← h, List.map_append]
    simp
  · push_neg at hc
    obtain ⟨hne, hlt⟩ := hc
    rcases hbf : b.f with _ | fl
    · exact absurd hbf hne
    · rw [nameInv, writeBatch_eq_write openOk base pgn b fl hbf hlt]
      dsimp only
      unfold nameInv at h
      rw [hbf] at h
      simpa using h

/-! ### Concrete instances used by the witnesses -/

/-- An engine whose analysis always returns the single-move principal
variation e2e4. -/
def engE4 : Engine := fun _ => EngineResult.ok { isTruthy := true, pv := some ["e2e4"] }

/-- An engine whose analysis always raises. -/
def engRaise : Engine := fun _ => EngineResult.raise "boom"

/-- A file system on which every open succeeds. -/
def alwaysOpen : String → Bool := fun _ => true

/-- A well-formed record whose embedded solution is e2e4. -/
def gE4 : Game :=
  { fen := some "F1", setup := some "1", event := none
    mainlineMoves := ["e2e4"], pgnString := "P1" }

/-- A well-formed record whose embedded solution is d2d4. -/
def gD4 : Game :=
  { fen := some "F2", setup := some "1", event := none
    mainlineMoves := ["d2d4"], pgnString := "P2" }

/-- A record with no FEN header. -/
def gNoFen : Game :=
  { fen := none, setup := some "1", event := none
    mainlineMoves := ["e2e4"], pgnString := "P3" }

/-! ### The claims -/

/-- C1: a record that passes validation (truthy FEN header, at least one
mainline move) and for which the engine returns a top move is appended
to the easy stream — with the hard stream untouched — precisely when the
engine's top move equals the first mainline move, and appended to the
hard stream — with the easy stream untouched — precisely when it does
not. -/
theorem C1_easy_iff_engine_matches_solution
    (engine : Engine) (openOk : String → Bool) (easyBase hardBase : String)
    (s : PState) (g : Game) (sol : Move) (rest : List Move) (t : Move)
    (hfen : pyFalsy g.fen = false)
    (hml : g.mainlineMoves = sol :: rest)
    (htop : (get_maia_top_move engine (g.fen.getD "")).1 = some t) :
    (((processGame engine openOk easyBase hardBase s g).easy_puzzles_pgn_strings
        = s.easy_puzzles_pgn_strings ++ [g.pgnString] ∧
      (processGame engine openOk easyBase hardBase s g).hard_puzzles_pgn_strings
        = s.hard_puzzles_pgn_strings) ↔ sol = t) ∧
    (((processGame engine openOk easyBase hardBase s g).hard_puzzles_pgn_strings
        = s.hard_puzzles_pgn_strings ++ [g.pgnString] ∧
      (processGame engine openOk easyBase hardBase s g).easy_puzzles_pgn_strings
        = s.easy_puzzles_pgn_strings) ↔ sol ≠ t) := by
  by_cases hst : sol = t
  · obtain ⟨he, hh, -, -, -, -⟩ :=
      processGame_easy_case engine openOk easyBase hardBase s g sol rest t hfen hml htop hst
    rw [he, hh]
    constructor
    · exact ⟨fun _ => hst, fun _ => ⟨rfl, rfl⟩⟩
    · simp [hst, List.self_eq_append_right]
  · obtain ⟨hh, he, -, -, -, -⟩ :=
      processGame_hard_case engine openOk easyBase hardBase s g sol rest t hfen hml htop hst
    rw [he, hh]
    constructor
    · simp [hst, List.self_eq_append_right]
    · exact ⟨fun _ => hst, fun _ => ⟨rfl, rfl⟩⟩

/-- Witness for C1 at a concrete easy record. -/
theorem C1_easy_iff_engine_matches_solution_witness :
    (((processGame engE4 alwaysOpen "e" "h" initState gE4).easy_puzzles_pgn_strings
        = initState.easy_puzzles_pgn_strings ++ [gE4.pgnString] ∧
      (processGame engE4 alwaysOpen "e" "h" initState gE4).hard_puzzles_pgn_strings
        = initState.hard_puzzles_pgn_strings) ↔ "e2e4" = "e2e4") ∧
    (((processGame engE4 alwaysOpen "e" "h" initState gE4).hard_puzzles_pgn_strings
        = initState.hard_puzzles_pgn_strings ++ [gE4.pgnString] ∧
      (processGame engE4 alwaysOpen "e" "h" initState gE4).easy_puzzles_pgn_strings
        = initState.easy_puzzles_pgn_strings) ↔ "e2e4" ≠ "e2e4") :=
  C1_easy_iff_engine_matches_solution engE4 alwaysOpen "e" "h" initState gE4
    "e2e4" [] "e2e4" rfl rfl rfl

/-- C4: `get_maia_top_move` returns the first move of the principal
variation the engine reports for the record's FEN; when the analysis
raises, or the info dict is falsy, lacks a `pv`, or its `pv` is empty,
it returns `none` after printing a message. -/
theorem C4_get_maia_top_move_spec (engine : Engine) (fen : String) :
    (∀ e, engine fen = EngineResult.raise e →
        (get_maia_top_move engine fen).1 = none ∧
        (get_maia_top_move engine fen).2 ≠ []) ∧
    (∀ info m tl, engine fen = EngineResult.ok info → info.isTruthy = true →
        info.pv = some (m :: tl) →
        (get_maia_top_move engine fen).1 = some m ∧
        (get_maia_top_move engine fen).2 = []) ∧
    (∀ info, engine fen = EngineResult.ok info →
        (info.isTruthy = false ∨ info.pv = none ∨ info.pv = some []) →
        (get_maia_top_move engine fen).1 = none ∧
        (get_maia_top_move engine fen).2 ≠ []) := by
  refine ⟨?_, ?_, ?_⟩
  · intro e he
    simp [get_maia_top_move, he]
  · intro info m tl he ht hpv
    simp [get_maia_top_move, he, ht, hpv]
  · intro info he hcase
    rcases hcase with h | h | h <;>
      cases ht : info.isTruthy <;>
        simp [get_maia_top_move, he, h, ht]

/-- Witness for C4: a raising engine yields none with a message, and a
clean engine yields the head of its pv with no message. -/
theorem C4_get_maia_top_move_spec_witness :
    ((get_maia_top_move engRaise "F").1 = none ∧
      (get_maia_top_move engRaise "F").2 ≠ []) ∧
    ((get_maia_top_move engE4 "F").1 = some "e2e4" ∧
      (get_maia_top_move engE4 "F").2 = []) :=
  ⟨(C4_get_maia_top_move_spec engRaise "F").1 "boom" rfl,
   (C4_get_maia_top_move_spec engE4 "F").2.1
     { isTruthy := true, pv := some ["e2e4"] } "e2e4" [] rfl rfl rfl⟩

/-- C5: the move compared with the engine's choice is exactly the first
mainline move embedded in the record, taken verbatim: for every string
`sol` — whether or not it is a legal move or a correct solution — and
every tail, the record is classified easy precisely when the engine's
top move equals `sol`.  No legality or correctness check enters the
classification. -/
theorem C5_solution_is_first_mainline_move_verbatim
    (engine : Engine) (openOk : String → Bool) (easyBase hardBase : String)
    (s : PState) (fen : String) (stp ev : Option String) (sol : Move)
    (rest : List Move) (pgn : String) (t : Move)
    (hfen : fen ≠ "")
    (htop : (get_maia_top_move engine fen).1 = some t) :
    ((processGame engine openOk easyBase hardBase s
        { fen := some fen, setup := stp, event := ev
          mainlineMoves := sol :: rest, pgnString := pgn }).easy_puzzles_pgn_strings
      = s.easy_puzzles_pgn_strings ++ [pgn]) ↔ sol = t := by
  have hfen2 : pyFalsy (some fen) = false := by
    simp only [pyFalsy]
    rw [Bool.eq_false_iff]
    intro h
    exact hfen ((String.isEmpty_iff fen).mp h)
  by_cases hst : sol = t
  · obtain ⟨he, -, -, -, -, -⟩ :=
      processGame_easy_case engine openOk easyBase hardBase s
        { fen := some fen, setup := stp, event := ev
          mainlineMoves := sol :: rest, pgnString := pgn }
        sol rest t hfen2 rfl htop hst
    rw [he]
    exact ⟨fun _ => hst, fun _ => rfl⟩
  · obtain ⟨-, he, -, -, -, -⟩ :=
      processGame_hard_case engine openOk easyBase hardBase s
        { fen := some fen, setup := stp, event := ev
          mainlineMoves := sol :: rest, pgnString := pgn }
        sol rest t hfen2 rfl htop hst
    rw [he]
    simp [hst, List.self_eq_append_right]

/-- Witness for C5 with a nonsense, illegal "solution" string, still
compared verbatim and classified hard. -/
theorem C5_solution_is_first_mainline_move_verbatim_witness :
    ((processGame engE4 alwaysOpen "e" "h" initState
        { fen := some "F1", setup := some "1", event := none
          mainlineMoves := ["not a move"], pgnString := "P9" }).easy_puzzles_pgn_strings
      = initState.easy_puzzles_pgn_strings ++ ["P9"]) ↔ "not a move" = "e2e4" :=
  C5_solution_is_first_mainline_move_verbatim engE4 alwaysOpen "e" "h" initState
    "F1" (some "1") none "not a move" [] "P9" "e2e4" (by decide) rfl

/-- C6: a record that fails validation (falsy FEN header — whatever the
SetUp header — or empty mainline) or for which the engine yields no top
move is skipped: a message is logged, the error counter is incremented,
neither class list nor batch stream is written, and the loop continues
with the remaining records instead of aborting. -/
theorem C6_error_records_skipped_and_loop_continues
    (engine : Engine) (openOk : String → Bool) (easyBase hardBase : String)
    (s : PState) (g : Game)
    (h : pyFalsy g.fen = true ∨
         (pyFalsy g.fen = false ∧ g.mainlineMoves = []) ∨
         (pyFalsy g.fen = false ∧ ∃ sol rest, g.mainlineMoves = sol :: rest ∧
            (get_maia_top_move engine (g.fen.getD "")).1 = none)) :
    ((processGame engine openOk easyBase hardBase s g).error_puzzles_count
        = s.error_puzzles_count + 1 ∧
      (processGame engine openOk easyBase hardBase s g).processed_puzzles_count
        = s.processed_puzzles_count + 1 ∧
      (processGame engine openOk easyBase hardBase s g).easy_puzzles_pgn_strings
        = s.easy_puzzles_pgn_strings ∧
      (processGame engine openOk easyBase hardBase s g).hard_puzzles_pgn_strings
        = s.hard_puzzles_pgn_strings ∧
      (processGame engine openOk easyBase hardBase s g).easyBatch = s.easyBatch ∧
      (processGame engine openOk easyBase hardBase s g).hardBatch = s.hardBatch ∧
      ∃ msgs, (processGame engine openOk easyBase hardBase s g).log = s.log ++ msgs
        ∧ msgs ≠ []) ∧
    (∀ gs, processList engine openOk easyBase hardBase s (g :: gs)
        = processList engine openOk easyBase hardBase
            (processGame engine openOk easyBase hardBase s g) gs) := by
  refine ⟨?_, fun gs => processList_cons engine openOk easyBase hardBase s g gs⟩
  rcases h with hfen | ⟨hfen, hml⟩ | ⟨hfen, sol, rest, hml, htop⟩
  · exact processGame_skip_nofen engine openOk easyBase hardBase s g hfen
  · exact processGame_skip_nomoves engine openOk easyBase hardBase s g hfen hml
  · exact processGame_skip_notop engine openOk easyBase hardBase s g sol rest hfen hml htop

/-- Witness for C6 at a concrete record lacking a FEN header. -/
theorem C6_error_records_skipped_and_loop_continues_witness :
    ((processGame engE4 alwaysOpen "e" "h" initState gNoFen).error_puzzles_count
        = initState.error_puzzles_count + 1 ∧
      (processGame engE4 alwaysOpen "e" "h" initState gNoFen).processed_puzzles_count
        = initState.processed_puzzles_count + 1 ∧
      (processGame engE4 alwaysOpen "e" "h" initState gNoFen).easy_puzzles_pgn_strings
        = initState.easy_puzzles_pgn_strings ∧
      (processGame engE4 alwaysOpen "e" "h" initState gNoFen).hard_puzzles_pgn_strings
        = initState.hard_puzzles_pgn_strings ∧
      (processGame engE4 alwaysOpen "e" "h" initState gNoFen).easyBatch = initState.easyBatch ∧
      (processGame engE4 alwaysOpen "e" "h" initState gNoFen).hardBatch = initState.hardBatch ∧
      ∃ msgs, (processGame engE4 alwaysOpen "e" "h" initState gNoFen).log
          = initState.log ++ msgs ∧ msgs ≠ []) ∧
    (∀ gs, processList engE4 alwaysOpen "e" "h" initState (gNoFen :: gs)
        = processList engE4 alwaysOpen "e" "h"
            (processGame engE4 alwaysOpen "e" "h" initState gNoFen) gs) :=
  C6_error_records_skipped_and_loop_continues engE4 alwaysOpen "e" "h" initState gNoFen
    (Or.inl rfl)

/-- C10: a record whose FEN header is absent is skipped as an error,
whatever its SetUp header holds (the hypothesis places no constraint on
`g.setup`): the error counter is incremented and the record is never
classified into either stream.  In particular a game from the standard
initial position that omits the FEN tag is never classified. -/
theorem C10_missing_fen_always_skipped
    (engine : Engine) (openOk : String → Bool) (easyBase hardBase : String)
    (s : PState) (g : Game)
    (hfen : g.fen = none) :
    (processGame engine openOk easyBase hardBase s g).error_puzzles_count
        = s.error_puzzles_count + 1 ∧
    (processGame engine openOk easyBase hardBase s g).easy_puzzles_pgn_strings
        = s.easy_puzzles_pgn_strings ∧
    (processGame engine openOk easyBase hardBase s g).hard_puzzles_pgn_strings
        = s.hard_puzzles_pgn_strings ∧
    (processGame engine openOk easyBase hardBase s g).easyBatch = s.easyBatch ∧
    (processGame engine openOk easyBase hardBase s g).hardBatch = s.hardBatch := by
  have hf : pyFalsy g.fen = true := by rw [hfen]; rfl
  obtain ⟨h1, -, h2, h3, h4, h5, -⟩ :=
    processGame_skip_nofen engine openOk easyBase hardBase s g hf
  exact ⟨h1, h2, h3, h4, h5⟩

/-- Witness for C10: a record carrying SetUp but no FEN, for a game that
would start from the standard initial position, is skipped. -/
theorem C10_missing_fen_always_skipped_witness :
    (processGame engE4 alwaysOpen "e" "h" initState gNoFen).error_puzzles_count
        = initState.error_puzzles_count + 1 ∧
    (processGame engE4 alwaysOpen "e" "h" initState gNoFen).easy_puzzles_pgn_strings
        = initState.easy_puzzles_pgn_strings ∧
    (processGame engE4 alwaysOpen "e" "h" initState gNoFen).hard_puzzles_pgn_strings
        = initState.hard_puzzles_pgn_strings ∧
    (processGame engE4 alwaysOpen "e" "h" initState gNoFen).easyBatch = initState.easyBatch ∧
    (processGame engE4 alwaysOpen "e" "h" initState gNoFen).hardBatch = initState.hardBatch :=
  C10_missing_fen_always_skipped engE4 alwaysOpen "e" "h" initState gNoFen rfl

/-- C3 as stated is false at this input: a record without a FEN header
is read from the input (the processed counter becomes 1), yet the
pipeline appends it to neither the easy nor the hard output stream. -/
theorem C3_counterexample_record_in_neither_stream :
    (processGame engE4 alwaysOpen "e" "h" initState gNoFen).processed_puzzles_count = 1 ∧
    (processGame engE4 alwaysOpen "e" "h" initState gNoFen).easy_puzzles_pgn_strings = [] ∧
    (processGame engE4 alwaysOpen "e" "h" initState gNoFen).hard_puzzles_pgn_strings = [] ∧
    (processGame engE4 alwaysOpen "e" "h" initState gNoFen).easyBatch.closed = [] ∧
    (processGame engE4 alwaysOpen "e" "h" initState gNoFen).easyBatch.f = none ∧
    (processGame engE4 alwaysOpen "e" "h" initState gNoFen).hardBatch.closed = [] ∧
    (processGame engE4 alwaysOpen "e" "h" initState gNoFen).hardBatch.f = none := by
  refine ⟨rfl, rfl, rfl, rfl, rfl, rfl, rfl⟩

/-- C3 amended: every record that passes validation and for which the
engine returns a top move is appended to exactly one of the two output
streams — either to the easy stream, leaving the hard stream and its
batch state untouched, or to the hard stream, leaving the easy side
untouched — and never to both. -/
theorem C3_amended_valid_record_to_exactly_one_stream
    (engine : Engine) (openOk : String → Bool) (easyBase hardBase : String)
    (s : PState) (g : Game) (sol : Move) (rest : List Move) (t : Move)
    (hfen : pyFalsy g.fen = false)
    (hml : g.mainlineMoves = sol :: rest)
    (htop : (get_maia_top_move engine (g.fen.getD "")).1 = some t) :
    (((processGame engine openOk easyBase hardBase s g).easy_puzzles_pgn_strings
        = s.easy_puzzles_pgn_strings ++ [g.pgnString] ∧
      (processGame engine openOk easyBase hardBase s g).hard_puzzles_pgn_strings
        = s.hard_puzzles_pgn_strings ∧
      (processGame engine openOk easyBase hardBase s g).hardBatch = s.hardBatch) ∨
     ((processGame engine openOk easyBase hardBase s g).hard_puzzles_pgn_strings
        = s.hard_puzzles_pgn_strings ++ [g.pgnString] ∧
      (processGame engine openOk easyBase hardBase s g).easy_puzzles_pgn_strings
        = s.easy_puzzles_pgn_strings ∧
      (processGame engine openOk easyBase hardBase s g).easyBatch = s.easyBatch)) ∧
    ¬((processGame engine openOk easyBase hardBase s g).easy_puzzles_pgn_strings
        = s.easy_puzzles_pgn_strings ++ [g.pgnString] ∧
      (processGame engine openOk easyBase hardBase s g).hard_puzzles_pgn_strings
        = s.hard_puzzles_pgn_strings ++ [g.pgnString]) := by
  by_cases hst : sol = t
  · obtain ⟨he, hh, -, -, -, hb⟩ :=
      processGame_easy_case engine openOk easyBase hardBase s g sol rest t hfen hml htop hst
    refine ⟨Or.inl ⟨he, hh, hb⟩, ?_⟩
    rintro ⟨-, habs⟩
    rw [hh] at habs
    simp [List.self_eq_append_right] at habs
  · obtain ⟨hh, he, -, -, -, hb⟩ :=
      processGame_hard_case engine openOk easyBase hardBase s g sol rest t hfen hml htop hst
    refine ⟨Or.inr ⟨hh, he, hb⟩, ?_⟩
    rintro ⟨habs, -⟩
    rw [he] at habs
    simp [List.self_eq_append_right] at habs

/-- Witness for the amended C3 at a concrete hard record. -/
theorem C3_amended_valid_record_to_exactly_one_stream_witness :
    (((processGame engE4 alwaysOpen "e" "h" initState gD4).easy_puzzles_pgn_strings
        = initState.easy_puzzles_pgn_strings ++ [gD4.pgnString] ∧
      (processGame engE4 alwaysOpen "e" "h" initState gD4).hard_puzzles_pgn_strings
        = initState.hard_puzzles_pgn_strings ∧
      (processGame engE4 alwaysOpen "e" "h" initState gD4).hardBatch = initState.hardBatch) ∨
     ((processGame engE4 alwaysOpen "e" "h" initState gD4).hard_puzzles_pgn_strings
        = initState.hard_puzzles_pgn_strings ++ [gD4.pgnString] ∧
      (processGame engE4 alwaysOpen "e" "h" initState gD4).easy_puzzles_pgn_strings
        = initState.easy_puzzles_pgn_strings ∧
      (processGame engE4 alwaysOpen "e" "h" initState gD4).easyBatch = initState.easyBatch)) ∧
    ¬((processGame engE4 alwaysOpen "e" "h" initState gD4).easy_puzzles_pgn_strings
        = initState.easy_puzzles_pgn_strings ++ [gD4.pgnString] ∧
      (processGame engE4 alwaysOpen "e" "h" initState gD4).hard_puzzles_pgn_strings
        = initState.hard_puzzles_pgn_strings ++ [gD4.pgnString]) :=
  C3_amended_valid_record_to_exactly_one_stream engE4 alwaysOpen "e" "h" initState gD4
    "d2d4" [] "e2e4" rfl rfl rfl

/-- C8: after every record — that is, for every prefix of the input —
the number of records read equals the number classified easy plus the
number classified hard plus the number skipped as errors, and the same
partition holds for the final summary counts of a whole run. -/
theorem C8_counts_partition_input
    (engine : Engine) (openOk : String → Bool) (easyBase hardBase : String)
    (games : List Game) (n : Nat)
    (init : InitOutcome) (input : Option (List Game)) (crashAfter : Option Nat)
    (eo ho : String) :
    ((processList engine openOk easyBase hardBase initState
        (games.take n)).processed_puzzles_count
      = (processList engine openOk easyBase hardBase initState
          (games.take n)).easy_puzzles_pgn_strings.length
        + (processList engine openOk easyBase hardBase initState
            (games.take n)).hard_puzzles_pgn_strings.length
        + (processList engine openOk easyBase hardBase initState
            (games.take n)).error_puzzles_count) ∧
    ((process_pgn_file init input crashAfter engine openOk eo ho).state.processed_puzzles_count
      = (process_pgn_file init input crashAfter engine openOk eo ho).state.easy_puzzles_pgn_strings.length
        + (process_pgn_file init input crashAfter engine openOk eo ho).state.hard_puzzles_pgn_strings.length
        + (process_pgn_file init input crashAfter engine openOk eo ho).state.error_puzzles_count) := by
  have key : ∀ (e : Engine) (oo : String → Bool) (eb hb : String) (gs : List Game),
      (processList e oo eb hb initState gs).processed_puzzles_count
        = (processList e oo eb hb initState gs).easy_puzzles_pgn_strings.length
          + (processList e oo eb hb initState gs).hard_puzzles_pgn_strings.length
          + (processList e oo eb hb initState gs).error_puzzles_count := by
    intro e oo eb hb gs
    have h1 := processList_processed e oo eb hb gs initState
    have h2 := processList_partition e oo eb hb gs initState
    rw [h1, h2]
    simp [initState]
  refine ⟨key engine openOk easyBase hardBase (games.take n), ?_⟩
  unfold process_pgn_file
  cases init with
  | popenFail e => simp [initState]
  | configureFail e => simp [initState]
  | ok =>
      cases input with
      | none => simp [initState]
      | some gs =>
          cases crashAfter with
          | none =>
              simpa [finallyClose] using
                key engine openOk (rsplitBase eo) (rsplitBase ho) gs
          | some k =>
              simpa [finallyClose] using
                key engine openOk (rsplitBase eo) (rsplitBase ho) (gs.take k)

/-- Every file of a stream satisfying `batchInv` — closed or still
open — holds at most `PUZZLES_PER_BATCH` puzzles. -/
theorem batchInv_files_bounded (b : BatchState) (h : batchInv b) :
    ∀ fl ∈ b.closed ++ b.f.toList, fl.puzzles.length ≤ PUZZLES_PER_BATCH := by
  obtain ⟨hclosed, hopenf, hcount⟩ := h
  intro fl hfl
  rcases List.mem_append.1 hfl with h1 | h2
  · exact hclosed fl h1
  · rcases hbf : b.f with _ | f0
    · rw [hbf] at h2
      simp at h2
    · rw [hbf] at h2
      simp at h2
      subst h2
      rw [hopenf _ hbf]
      exact hcount

theorem batchInv_init :
    batchInv { batch_num := 0, in_current_batch := 0, f := none, closed := [] } :=
  ⟨(fun _ h => nomatch h), (fun _ h => nomatch h), Nat.zero_le _⟩

theorem nameInv_init (base : String) :
    nameInv base { batch_num := 0, in_current_batch := 0, f := none, closed := [] } := by
  simp [nameInv, nameList]

/-- After any complete run, every file of both batch streams is bounded
by `PUZZLES_PER_BATCH`. -/
theorem run_closed_bounded (init : InitOutcome) (input : Option (List Game))
    (crashAfter : Option Nat) (engine : Engine) (openOk : String → Bool)
    (eo ho : String) :
    (∀ fl ∈ (process_pgn_file init input crashAfter engine openOk eo ho).state.easyBatch.closed,
        fl.puzzles.length ≤ PUZZLES_PER_BATCH) ∧
    (∀ fl ∈ (process_pgn_file init input crashAfter engine openOk eo ho).state.hardBatch.closed,
        fl.puzzles.length ≤ PUZZLES_PER_BATCH) := by
  unfold process_pgn_file
  cases init with
  | popenFail e => exact ⟨(fun _ h => nomatch h), (fun _ h => nomatch h)⟩
  | configureFail e => exact ⟨(fun _ h => nomatch h), (fun _ h => nomatch h)⟩
  | ok =>
      cases input with
      | none => exact ⟨(fun _ h => nomatch h), (fun _ h => nomatch h)⟩
      | some gs =>
          have main : ∀ handled : List Game,
              (∀ fl ∈ (finallyClose (processList engine openOk (rsplitBase eo)
                  (rsplitBase ho) initState handled)).easyBatch.closed,
                  fl.puzzles.length ≤ PUZZLES_PER_BATCH) ∧
              (∀ fl ∈ (finallyClose (processList engine openOk (rsplitBase eo)
                  (rsplitBase ho) initState handled)).hardBatch.closed,
                  fl.puzzles.length ≤ PUZZLES_PER_BATCH) := by
            intro handled
            have hinv := processList_batch engine openOk (rsplitBase eo) (rsplitBase ho)
              handled initState batchInv batchInv
              (fun pgn b h => writeBatch_inv openOk (rsplitBase eo) pgn b h)
              (fun pgn b h => writeBatch_inv openOk (rsplitBase ho) pgn b h)
              batchInv_init batchInv_init
            exact ⟨batchInv_files_bounded _ hinv.1, batchInv_files_bounded _ hinv.2⟩
          cases crashAfter with
          | none => exact main gs
          | some k => exact main (gs.take k)

/-- C2: every easy and every hard batch file of any run receives at most
`PUZZLES_PER_BATCH` (25) puzzles; moreover, when the current batch file
of a class holds exactly 25 puzzles, the next puzzle of that class first
closes it, opens the file carrying the next batch number, and is written
to that new file. -/
theorem C2_batch_files_hold_at_most_25
    (init : InitOutcome) (input : Option (List Game)) (crashAfter : Option Nat)
    (engine : Engine) (openOk : String → Bool) (eo ho : String)
    (b : BatchState) (f : BatchFile) (base pgn : String)
    (hf : b.f = some f)
    (h25 : b.in_current_batch = PUZZLES_PER_BATCH)
    (hok : openOk (batchFileName base (b.batch_num + 1)) = true) :
    (∀ fl ∈ (process_pgn_file init input crashAfter engine openOk eo ho).state.easyBatch.closed,
        fl.puzzles.length ≤ PUZZLES_PER_BATCH) ∧
    (∀ fl ∈ (process_pgn_file init input crashAfter engine openOk eo ho).state.hardBatch.closed,
        fl.puzzles.length ≤ PUZZLES_PER_BATCH) ∧
    (writeBatch openOk base pgn b).closed = b.closed ++ [f] ∧
    (writeBatch openOk base pgn b).batch_num = b.batch_num + 1 ∧
    (writeBatch openOk base pgn b).f
        = some { name := batchFileName base (b.batch_num + 1)
                 puzzles := [pgn ++ "\n\n"] } := by
  obtain ⟨r1, r2, r3, -⟩ := writeBatch_rotates openOk base pgn b f hf h25 hok
  obtain ⟨b1, b2⟩ := run_closed_bounded init input crashAfter engine openOk eo ho
  exact ⟨b1, b2, r1, r2, r3⟩

/-- Witness for C2: a concrete run together with a concrete full batch
being rotated. -/
theorem C2_batch_files_hold_at_most_25_witness :
    (∀ fl ∈ (process_pgn_file InitOutcome.ok (some [gE4, gD4]) none engE4 alwaysOpen
        "easy_puzzles_output.pgn" "hard_puzzles_output.pgn").state.easyBatch.closed,
        fl.puzzles.length ≤ PUZZLES_PER_BATCH) ∧
    (∀ fl ∈ (process_pgn_file InitOutcome.ok (some [gE4, gD4]) none engE4 alwaysOpen
        "easy_puzzles_output.pgn" "hard_puzzles_output.pgn").state.hardBatch.closed,
        fl.puzzles.length ≤ PUZZLES_PER_BATCH) ∧
    (writeBatch alwaysOpen "easy_puzzles_output" "P"
        { batch_num := 1, in_current_batch := 25
          f := some { name := "easy_puzzles_output_batch_1.pgn"
                      puzzles := List.replicate 25 "x" }
          closed := [] }).closed
      = [] ++ [{ name := "easy_puzzles_output_batch_1.pgn"
                 puzzles := List.replicate 25 "x" }] ∧
    (writeBatch alwaysOpen "easy_puzzles_output" "P"
        { batch_num := 1, in_current_batch := 25
          f := some { name := "easy_puzzles_output_batch_1.pgn"
                      puzzles := List.replicate 25 "x" }
          closed := [] }).batch_num = 1 + 1 ∧
    (writeBatch alwaysOpen "easy_puzzles_output" "P"
        { batch_num := 1, in_current_batch := 25
          f := some { name := "easy_puzzles_output_batch_1.pgn"
                      puzzles := List.replicate 25 "x" }
          closed := [] }).f
      = some { name := batchFileName "easy_puzzles_output" (1 + 1)
               puzzles := ["P" ++ "\n\n"] } :=
  C2_batch_files_hold_at_most_25 InitOutcome.ok (some [gE4, gD4]) none engE4 alwaysOpen
    "easy_puzzles_output.pgn" "hard_puzzles_output.pgn"
    { batch_num := 1, in_current_batch := 25
      f := some { name := "easy_puzzles_output_batch_1.pgn"
                  puzzles := List.replicate 25 "x" }
      closed := [] }
    { name := "easy_puzzles_output_batch_1.pgn", puzzles := List.replicate 25 "x" }
    "easy_puzzles_output" "P" rfl rfl rfl

/-- C9: when every open succeeds, the batch files of each class, in
creation order, are exactly the files `base_batch_1.pgn` up to
`base_batch_k.pgn` where `base` is the configured output path with its
final extension stripped and `k` is the final batch counter of that
class: numbering starts at 1 and steps by exactly 1 per new file. -/
theorem C9_batch_file_naming
    (init : InitOutcome) (input : Option (List Game)) (crashAfter : Option Nat)
    (engine : Engine) (openOk : String → Bool) (eo ho : String)
    (hok : ∀ nm, openOk nm = true) :
    (process_pgn_file init input crashAfter engine openOk eo ho).state.easyBatch.closed.map
        (fun fl => fl.name)
      = nameList (rsplitBase eo)
          ((process_pgn_file init input crashAfter engine openOk eo ho).state.easyBatch.batch_num) ∧
    (process_pgn_file init input crashAfter engine openOk eo ho).state.hardBatch.closed.map
        (fun fl => fl.name)
      = nameList (rsplitBase ho)
          ((process_pgn_file init input crashAfter engine openOk eo ho).state.hardBatch.batch_num) := by
  unfold process_pgn_file
  cases init with
  | popenFail e => simp [initState, nameList]
  | configureFail e => simp [initState, nameList]
  | ok =>
      cases input with
      | none => simp [initState, nameList]
      | some gs =>
          have main : ∀ handled : List Game,
              (finallyClose (processList engine openOk (rsplitBase eo)
                  (rsplitBase ho) initState handled)).easyBatch.closed.map (fun fl => fl.name)
                = nameList (rsplitBase eo)
                    ((finallyClose (processList engine openOk (rsplitBase eo)
                        (rsplitBase ho) initState handled)).easyBatch.batch_num) ∧
              (finallyClose (processList engine openOk (rsplitBase eo)
                  (rsplitBase ho) initState handled)).hardBatch.closed.map (fun fl => fl.name)
                = nameList (rsplitBase ho)
                    ((finallyClose (processList engine openOk (rsplitBase eo)
                        (rsplitBase ho) initState handled)).hardBatch.batch_num) := by
            intro handled
            have hinv := processList_batch engine openOk (rsplitBase eo) (rsplitBase ho)
              handled initState (nameInv (rsplitBase eo)) (nameInv (rsplitBase ho))
              (fun pgn b h => writeBatch_nameInv openOk (rsplitBase eo) pgn b hok h)
              (fun pgn b h => writeBatch_nameInv openOk (rsplitBase ho) pgn b hok h)
              (nameInv_init (rsplitBase eo)) (nameInv_init (rsplitBase ho))
            exact ⟨hinv.1, hinv.2⟩
          cases crashAfter with
          | none => exact main gs
          | some k => exact main (gs.take k)

/-- Witness for C9 on a concrete run producing one easy and one hard
batch file. -/
theorem C9_batch_file_naming_witness :
    (process_pgn_file InitOutcome.ok (some [gE4, gD4]) none engE4 alwaysOpen
        "easy_puzzles_output.pgn" "hard_puzzles_output.pgn").state.easyBatch.closed.map
        (fun fl => fl.name)
      = nameList (rsplitBase "easy_puzzles_output.pgn")
          ((process_pgn_file InitOutcome.ok (some [gE4, gD4]) none engE4 alwaysOpen
              "easy_puzzles_output.pgn" "hard_puzzles_output.pgn").state.easyBatch.batch_num) ∧
    (process_pgn_file InitOutcome.ok (some [gE4, gD4]) none engE4 alwaysOpen
        "easy_puzzles_output.pgn" "hard_puzzles_output.pgn").state.hardBatch.closed.map
        (fun fl => fl.name)
      = nameList (rsplitBase "hard_puzzles_output.pgn")
          ((process_pgn_file InitOutcome.ok (some [gE4, gD4]) none engE4 alwaysOpen
              "easy_puzzles_output.pgn" "hard_puzzles_output.pgn").state.hardBatch.batch_num) :=
  C9_batch_file_naming InitOutcome.ok (some [gE4, gD4]) none engE4 alwaysOpen
    "easy_puzzles_output.pgn" "hard_puzzles_output.pgn" (fun _ => rfl)

/-- C7: the engine is started at most once, and records are read only
after it is started; when starting it fails the function returns with no
record read; and on every exit — failed initialisation after the engine
variable was assigned, missing input file, normal end of input, or an
exception interrupting the loop — a started engine is quit (and only a
started one), and no batch file remains open. -/
theorem C7_engine_lifecycle
    (init : InitOutcome) (input : Option (List Game)) (crashAfter : Option Nat)
    (engine : Engine) (openOk : String → Bool) (eo ho : String) :
    ((process_pgn_file init input crashAfter engine openOk eo ho).engineQuit
        = (process_pgn_file init input crashAfter engine openOk eo ho).engineOpened) ∧
    (∀ e, init = InitOutcome.popenFail e →
        (process_pgn_file init input crashAfter engine openOk eo ho).engineOpened = false) ∧
    (init ≠ InitOutcome.ok →
        (process_pgn_file init input crashAfter engine openOk eo ho).state.processed_puzzles_count
          = 0) ∧
    (input = none →
        (process_pgn_file init input crashAfter engine openOk eo ho).state.processed_puzzles_count
          = 0) ∧
    ((process_pgn_file init input crashAfter engine openOk eo ho).state.processed_puzzles_count > 0 →
        (process_pgn_file init input crashAfter engine openOk eo ho).engineOpened = true) ∧
    (process_pgn_file init input crashAfter engine openOk eo ho).state.easyBatch.f = none ∧
    (process_pgn_file init input crashAfter engine openOk eo ho).state.hardBatch.f = none := by
  unfold process_pgn_file
  cases init with
  | popenFail e => simp [initState]
  | configureFail e => simp [initState]
  | ok =>
      cases input with
      | none => simp [initState]
      | some gs =>
          cases crashAfter with
          | none => simp [finallyClose]
          | some k => simp [finallyClose]

/-- Witness for C7 on a concrete run whose engine start fails. -/
theorem C7_engine_lifecycle_witness :
    (process_pgn_file (InitOutcome.popenFail "no exec") (some [gE4]) none engE4 alwaysOpen
        "e.pgn" "h.pgn").engineOpened = false ∧
    (process_pgn_file (InitOutcome.popenFail "no exec") (some [gE4]) none engE4 alwaysOpen
        "e.pgn" "h.pgn").state.processed_puzzles_count = 0 :=
  ⟨(C7_engine_lifecycle (InitOutcome.popenFail "no exec") (some [gE4]) none engE4 alwaysOpen
      "e.pgn" "h.pgn").2.1 "no exec" rfl,
   (C7_engine_lifecycle (InitOutcome.popenFail "no exec") (some [gE4]) none engE4 alwaysOpen
      "e.pgn" "h.pgn").2.2.1 (fun h => nomatch h)⟩

end ClassifyPuzzles
